import Mathlib

/-!
Shallow embedding of the echo-program instruction processor
(`src/processor.rs`, `Processor::process_instruction`).

Pubkeys are modelled as natural numbers, account byte regions as `List Nat`
(each entry a byte), and the host-supplied address-derivation primitives
(`Pubkey::find_program_address`, `Pubkey::create_program_address`) as fields
of an explicit `Host` parameter, since their hash-based implementation lives
in the execution host, outside this repository. A handler result of `none`
models a Rust panic (slice-index out of bounds, `unwrap` on `Err`); a result
of `some` carries the account-creation requests issued to the host, the final
account states, and the returned `ProgramError`, if any.
-/

/-- Public keys, modelled as natural numbers. -/
abbrev Pubkey := Nat

/-- Little-endian byte encoding of a 64-bit integer, as `u64::to_le_bytes`. -/
def u64LeBytes (n : Nat) : List Nat :=
  (List.range 8).map fun i => n / 256 ^ i % 256

/-- Byte view of a public key, as `Pubkey::as_ref` (32 bytes, little-endian here). -/
def pubkeyBytes (k : Pubkey) : List Nat :=
  (List.range 32).map fun i => k / 256 ^ i % 256

/-- Value of a little-endian byte list. -/
def leBytesToNat : List Nat → Nat
  | [] => 0
  | b :: bs => b + 256 * leBytesToNat bs

/-- Modelled from the spec: `state.rs` is not under `src/`. Header persisted at
the start of an authorized buffer account: `{ bump_seed: u8, buffer_seed: u64 }`. -/
structure AuthorizedBufferHeader where
  bump_seed : Nat
  buffer_seed : Nat
deriving DecidableEq, Repr

/-- Modelled from the spec: `state.rs` is not under `src/`. Header persisted at
the start of a vending-machine buffer account: `{ bump_seed: u8, price: u64 }`. -/
structure VendingMachineBufferHeader where
  bump_seed : Nat
  price : Nat
deriving DecidableEq, Repr

/-- Modelled from the spec: `state.rs` is not under `src/`. Fixed byte width of
the serialized `AuthorizedBufferHeader` (`u8` + `u64` under the deterministic
fixed-order field serialization, i.e. borsh): 1 + 8 = 9 bytes. -/
def AUTH_BUFFER_HEADER_SIZE : Nat := 9

/-- Borsh serialization of an `AuthorizedBufferHeader`: bump byte, then the
buffer seed little-endian (`try_to_vec`). -/
def AuthorizedBufferHeader.tryToVec (h : AuthorizedBufferHeader) : List Nat :=
  h.bump_seed % 256 :: u64LeBytes h.buffer_seed

/-- Borsh serialization of a `VendingMachineBufferHeader`: bump byte, then the
price little-endian (`try_to_vec`). -/
def VendingMachineBufferHeader.tryToVec (h : VendingMachineBufferHeader) : List Nat :=
  h.bump_seed % 256 :: u64LeBytes h.price

/-- Borsh deserialization of an `AuthorizedBufferHeader` from a slice
(`try_from_slice`): succeeds exactly when the slice is the header's width. -/
def AuthorizedBufferHeader.tryFromSlice (bs : List Nat) : Option AuthorizedBufferHeader :=
  if bs.length = AUTH_BUFFER_HEADER_SIZE then
    some ⟨bs.headD 0, leBytesToNat (bs.drop 1)⟩
  else
    none

/-- Reading the stored header of an authorized buffer, as
`AuthorizedBufferHeader::try_from_slice(&buffer[..AUTH_BUFFER_HEADER_SIZE])`.
Returns `none` when the buffer is shorter than the header (the Rust slice
expression panics there) or when deserialization fails. -/
def decodeStoredHeader (buffer : List Nat) : Option AuthorizedBufferHeader :=
  AuthorizedBufferHeader.tryFromSlice (buffer.take AUTH_BUFFER_HEADER_SIZE)

/-- Typed errors surfaced by the processor (the subset of `ProgramError` it uses). -/
inductive ProgramError where
  | invalidInstructionData
  | invalidArgument
  | accountDataTooSmall
  | invalidAccountData
  | illegalOwner
  | notEnoughAccountKeys
deriving DecidableEq, Repr

/-- An account as the handler sees it: its address and its raw data region. -/
structure AccountInfo where
  key : Pubkey
  data : List Nat
deriving DecidableEq, Repr

/-- An account-creation request issued to the host via
`system_instruction::create_account` + `invoke_signed`. -/
structure CreateRequest where
  payer : Pubkey
  target : Pubkey
  size : Nat
deriving DecidableEq, Repr

/-- Result of one instruction execution: creation requests issued, final
account states, and the error returned (`none` = `Ok`). -/
structure ExecOutcome where
  creates : List CreateRequest
  accounts : List AccountInfo
  err : Option ProgramError
deriving DecidableEq, Repr

/-- Host-supplied address-derivation primitives. `findProgramAddress` returns
the derived address and its bump; `createProgramAddress` recomputes the
address for an explicit bump and fails (`none`) when the result is on-curve. -/
structure Host where
  findProgramAddress : List (List Nat) → Pubkey → Pubkey × Nat
  createProgramAddress : List (List Nat) → Pubkey → Option Pubkey

/-- The decoded instruction set of the program (`EchoInstruction`). -/
inductive EchoInstruction where
  | echo (data : List Nat)
  | initializeAuthorizedEcho (buffer_seed : Nat) (buffer_size : Nat)
  | authorizedEcho (data : List Nat)
  | initializeVendingMachine (price : Nat) (buffer_size : Nat)

/-- Seed literal `b"authority"`. -/
def authoritySeed : List Nat := (String.toList "authority").map Char.toNat

/-- Seed literal `b"vending_machine"`. -/
def vendingMachineSeed : List Nat := (String.toList "vending_machine").map Char.toNat

/-- Seed tuple for authorized-buffer derivation:
`[b"authority", authority.key.as_ref(), &buffer_seed.to_le_bytes()]`. -/
def authSeeds (authorityKey : Pubkey) (buffer_seed : Nat) : List (List Nat) :=
  [authoritySeed, pubkeyBytes authorityKey, u64LeBytes buffer_seed]

/-- Seed tuple, with explicit bump, rebuilt from a stored header in the
`AuthorizedEcho` arm. -/
def authSeedsWithBump (authorityKey : Pubkey) (hdr : AuthorizedBufferHeader) :
    List (List Nat) :=
  [authoritySeed, pubkeyBytes authorityKey, u64LeBytes hdr.buffer_seed, [hdr.bump_seed]]

/-- Seed tuple for vending-machine derivation:
`[b"vending_machine", mint.key.as_ref(), &price.to_le_bytes()]`. -/
def vendingSeeds (mintKey : Pubkey) (price : Nat) : List (List Nat) :=
  [vendingMachineSeed, pubkeyBytes mintKey, u64LeBytes price]

/-- The payload write of the `AuthorizedEcho` arm: the header bytes are kept,
and each payload byte at offset `i` becomes `data[i]` when `i < data.len()`
and `0` otherwise (the loop over `buffer_data` at processor.rs lines 141-148). -/
def authorizedWrite (buffer data : List Nat) : List Nat :=
  buffer.take AUTH_BUFFER_HEADER_SIZE ++
    (List.range (buffer.length - AUTH_BUFFER_HEADER_SIZE)).map
      fun i => if i < data.length then data.getD i 0 else 0

/-- The `Echo` arm (processor.rs lines 30-49): fails with `AccountDataTooSmall`
on an empty region, otherwise copies `buffer.len()` bytes out of `data` —
which panics (`none`) when `data` is shorter than the region, since the loop
indexes `data[index]` for every `index < buffer.len()`. -/
def processEcho (accounts : List AccountInfo) (data : List Nat) : Option ExecOutcome :=
  match accounts with
  | [] => some ⟨[], [], some .notEnoughAccountKeys⟩
  | echo_buffer :: rest =>
    if echo_buffer.data.length = 0 then
      some ⟨[], echo_buffer :: rest, some .accountDataTooSmall⟩
    else if echo_buffer.data.length ≤ data.length then
      some ⟨[], ⟨echo_buffer.key, data.take echo_buffer.data.length⟩ :: rest, none⟩
    else
      none

/-- The `InitializeAuthorizedEcho` arm (processor.rs lines 50-114): guards the
buffer size, derives the expected address, rejects a mismatching account, and
otherwise asks the host to create the account (zero-filled) and writes the
header into its first `AUTH_BUFFER_HEADER_SIZE` bytes. -/
def processInitializeAuthorizedEcho (host : Host) (programId : Pubkey)
    (accounts : List AccountInfo) (buffer_seed buffer_size : Nat) : Option ExecOutcome :=
  if buffer_size ≤ AUTH_BUFFER_HEADER_SIZE then
    some ⟨[], accounts, some .invalidArgument⟩
  else
    match accounts with
    | authorized_buffer :: authority :: system_program :: rest =>
      let fa := host.findProgramAddress (authSeeds authority.key buffer_seed) programId
      if fa.1 ≠ authorized_buffer.key then
        some ⟨[], authorized_buffer :: authority :: system_program :: rest,
          some .invalidAccountData⟩
      else
        let header : AuthorizedBufferHeader := ⟨fa.2, buffer_seed⟩
        some ⟨[⟨authority.key, authorized_buffer.key, buffer_size⟩],
          ⟨authorized_buffer.key,
            header.tryToVec ++ List.replicate (buffer_size - AUTH_BUFFER_HEADER_SIZE) 0⟩
            :: authority :: system_program :: rest,
          none⟩
    | _ => some ⟨[], accounts, some .notEnoughAccountKeys⟩

/-- The `AuthorizedEcho` arm (processor.rs lines 115-149): reads the stored
header (panicking when the region is shorter than the header or the header
fails to deserialize), recomputes the address with `create_program_address`
(panicking on its `Err` via `unwrap`), rejects a mismatch with `IllegalOwner`,
and otherwise overwrites the payload region, zero-padded. -/
def processAuthorizedEcho (host : Host) (programId : Pubkey)
    (accounts : List AccountInfo) (data : List Nat) : Option ExecOutcome :=
  match accounts with
  | authorized_buffer :: authority :: rest =>
    match decodeStoredHeader authorized_buffer.data with
    | none => none
    | some hdr =>
      match host.createProgramAddress (authSeedsWithBump authority.key hdr) programId with
      | none => none
      | some pda =>
        if pda ≠ authorized_buffer.key then
          some ⟨[], authorized_buffer :: authority :: rest, some .illegalOwner⟩
        else
          some ⟨[], ⟨authorized_buffer.key, authorizedWrite authorized_buffer.data data⟩
            :: authority :: rest, none⟩
  | _ => some ⟨[], accounts, some .notEnoughAccountKeys⟩

/-- The `InitializeVendingMachine` arm (processor.rs lines 150-215): the mint
format check's result is bound to `_mint` and ignored; the arm derives the
expected address, rejects a mismatching account, asks the host to create the
account, and copies the header into `buffer[0..AUTH_BUFFER_HEADER_SIZE]` —
which panics (`none`) when the created region is shorter than that slice.
There is no buffer-size guard in this arm. -/
def processInitializeVendingMachine (host : Host) (programId : Pubkey)
    (accounts : List AccountInfo) (price buffer_size : Nat) (mintValid : Bool) :
    Option ExecOutcome :=
  match accounts with
  | vending_machine_buffer :: vending_machine_mint :: payer :: system_program :: rest =>
    let _mint : Except ProgramError Unit :=
      if mintValid then .ok () else .error .invalidAccountData
    let fa := host.findProgramAddress (vendingSeeds vending_machine_mint.key price) programId
    if fa.1 ≠ vending_machine_buffer.key then
      some ⟨[], vending_machine_buffer :: vending_machine_mint :: payer
        :: system_program :: rest, some .invalidAccountData⟩
    else if buffer_size < AUTH_BUFFER_HEADER_SIZE then
      none
    else
      let header : VendingMachineBufferHeader := ⟨fa.2, price⟩
      some ⟨[⟨payer.key, vending_machine_buffer.key, buffer_size⟩],
        ⟨vending_machine_buffer.key,
          header.tryToVec ++ List.replicate (buffer_size - AUTH_BUFFER_HEADER_SIZE) 0⟩
          :: vending_machine_mint :: payer :: system_program :: rest,
        none⟩
  | _ => some ⟨[], accounts, some .notEnoughAccountKeys⟩

/-- Dispatch of `Processor::process_instruction` over a decoded instruction.
`mintValid` models whether the vending-machine mint account unpacks as a valid
token mint (`Mint::unpack_unchecked`), a host/token-library fact. -/
def processInstruction (host : Host) (programId : Pubkey) (accounts : List AccountInfo)
    (instruction : EchoInstruction) (mintValid : Bool) : Option ExecOutcome :=
  match instruction with
  | .echo data => processEcho accounts data
  | .initializeAuthorizedEcho buffer_seed buffer_size =>
    processInitializeAuthorizedEcho host programId accounts buffer_seed buffer_size
  | .authorizedEcho data => processAuthorizedEcho host programId accounts data
  | .initializeVendingMachine price buffer_size =>
    processInitializeVendingMachine host programId accounts price buffer_size mintValid

/-- A concrete host used to instantiate theorems: every derivation yields
address `1` with bump `255`. -/
def testHost : Host :=
  ⟨fun _ _ => (1, 255), fun _ _ => some 1⟩

theorem length_le_of_decode {buffer : List Nat} {hdr : AuthorizedBufferHeader}
    (h : decodeStoredHeader buffer = some hdr) :
    AUTH_BUFFER_HEADER_SIZE ≤ buffer.length := by
  unfold decodeStoredHeader AuthorizedBufferHeader.tryFromSlice at h
  split at h
  · rename_i hc
    rw [List.length_take] at hc
    omega
  · exact Option.noConfusion h

theorem rangeMap_getD (n i : Nat) (f : Nat → Nat) (h : i < n) :
    ((List.range n).map f).getD i 0 = f i := by
  have hl : i < ((List.range n).map f).length := by simpa using h
  rw [List.getD_eq_getElem _ _ hl]
  simp

/-- Claim C9: an `Echo` call whose target buffer's data region has zero length
fails with `AccountDataTooSmall`, no bytes are written, and no creation
request is issued. -/
theorem echo_empty_buffer_rejected (host : Host) (programId : Pubkey)
    (key : Pubkey) (rest : List AccountInfo) (data : List Nat) (mintValid : Bool) :
    processInstruction host programId (⟨key, []⟩ :: rest) (.echo data) mintValid
      = some ⟨[], ⟨key, []⟩ :: rest, some .accountDataTooSmall⟩ := by
  simp [processInstruction, processEcho]

/-- Claim C3 (evaluation at the failing input): `Echo { data = [9] }` on a
3-byte buffer panics — the loop indexes `data[1]` past the end of the 1-byte
payload — instead of copying `min(3, 1)` bytes. -/
theorem echo_short_payload_panics :
    processInstruction testHost 0 [⟨5, [0, 0, 0]⟩] (.echo [9]) true = none := rfl

/-- Claim C4 counterexample: `InitializeVendingMachine { price = 10,
buffer_size = 5 }` on the account matching its derivation does not fail with
`InvalidArgument`: the arm has no buffer-size guard, issues the
account-creation request, and panics at the header copy. -/
theorem initialize_vending_small_buffer_not_invalid_argument :
    ¬ ∃ out : ExecOutcome,
      processInstruction testHost 0 [⟨1, []⟩, ⟨5, []⟩, ⟨6, []⟩, ⟨7, []⟩]
        (.initializeVendingMachine 10 5) true = some out ∧
      out.err = some ProgramError.invalidArgument := by
  rintro ⟨out, h, -⟩
  have e : processInstruction testHost 0 [⟨1, []⟩, ⟨5, []⟩, ⟨6, []⟩, ⟨7, []⟩]
      (.initializeVendingMachine 10 5) true = none := rfl
  rw [e] at h
  exact Option.noConfusion h

/-- Claim C4 (amended): `InitializeAuthorizedEcho` with
`buffer_size ≤ AUTH_BUFFER_HEADER_SIZE` fails with `InvalidArgument` before
any account-creation request is issued and before any account is touched. -/
theorem initialize_authorized_small_buffer_rejected (host : Host) (programId : Pubkey)
    (accounts : List AccountInfo) (buffer_seed buffer_size : Nat) (mintValid : Bool)
    (h : buffer_size ≤ AUTH_BUFFER_HEADER_SIZE) :
    processInstruction host programId accounts
      (.initializeAuthorizedEcho buffer_seed buffer_size) mintValid
      = some ⟨[], accounts, some .invalidArgument⟩ := by
  simp [processInstruction, processInitializeAuthorizedEcho, h]

/-- Claim C4 witness: the amended guard at a concrete input. -/
theorem initialize_authorized_small_buffer_rejected_witness :
    9 ≤ AUTH_BUFFER_HEADER_SIZE ∧
    processInstruction testHost 0 [] (.initializeAuthorizedEcho 3 9) true
      = some ⟨[], [], some .invalidArgument⟩ :=
  ⟨by decide, initialize_authorized_small_buffer_rejected testHost 0 [] 3 9 true (by decide)⟩

/-- Claim C1: an `AuthorizedEcho` call whose stored header re-derives (via
`create_program_address` over seeds `b"authority"`, the authority key, the
stored `buffer_seed`, and the stored `bump_seed`) to an address different from
the buffer account's own address fails with `IllegalOwner`, and every account
— in particular the buffer's payload region — is unchanged. -/
theorem authorized_echo_wrong_pda_rejected (host : Host) (programId : Pubkey)
    (ab authority : AccountInfo) (rest : List AccountInfo) (data : List Nat)
    (mintValid : Bool) (hdr : AuthorizedBufferHeader) (pda : Pubkey)
    (hdec : decodeStoredHeader ab.data = some hdr)
    (hcpa : host.createProgramAddress (authSeedsWithBump authority.key hdr) programId
      = some pda)
    (hne : pda ≠ ab.key) :
    processInstruction host programId (ab :: authority :: rest)
      (.authorizedEcho data) mintValid
      = some ⟨[], ab :: authority :: rest, some .illegalOwner⟩ := by
  simp [processInstruction, processAuthorizedEcho, hdec, hcpa, hne]

/-- Claim C1 witness: concrete rejected call (stored header decodes to
`{bump 0, seed 0}`, re-derived address `1`, account address `2`). -/
theorem authorized_echo_wrong_pda_rejected_witness :
    decodeStoredHeader [0, 0, 0, 0, 0, 0, 0, 0, 0, 7, 7] = some ⟨0, 0⟩ ∧
    testHost.createProgramAddress (authSeedsWithBump 3 ⟨0, 0⟩) 0 = some 1 ∧
    processInstruction testHost 0 [⟨2, [0, 0, 0, 0, 0, 0, 0, 0, 0, 7, 7]⟩, ⟨3, []⟩]
      (.authorizedEcho [1, 2]) true
      = some ⟨[], [⟨2, [0, 0, 0, 0, 0, 0, 0, 0, 0, 7, 7]⟩, ⟨3, []⟩], some .illegalOwner⟩ :=
  ⟨by decide, rfl,
    authorized_echo_wrong_pda_rejected testHost 0 ⟨2, [0, 0, 0, 0, 0, 0, 0, 0, 0, 7, 7]⟩
      ⟨3, []⟩ [] [1, 2] true ⟨0, 0⟩ 1 (by decide) rfl (by decide)⟩

/-- Claim C10: an `AuthorizedEcho` call on a buffer shorter than the header,
or whose leading bytes do not decode as an `AuthorizedBufferHeader`, or whose
stored seeds-plus-bump make `create_program_address` fail, panics (modelled as
`none`) instead of returning a typed error. -/
theorem authorized_echo_malformed_buffer_panics (host : Host) (programId : Pubkey)
    (ab authority : AccountInfo) (rest : List AccountInfo) (data : List Nat)
    (mintValid : Bool)
    (h : ab.data.length < AUTH_BUFFER_HEADER_SIZE ∨
      decodeStoredHeader ab.data = none ∨
      ∀ hdr : AuthorizedBufferHeader, decodeStoredHeader ab.data = some hdr →
        host.createProgramAddress (authSeedsWithBump authority.key hdr) programId = none) :
    processInstruction host programId (ab :: authority :: rest)
      (.authorizedEcho data) mintValid = none := by
  rcases hd : decodeStoredHeader ab.data with _ | hdr
  · simp [processInstruction, processAuthorizedEcho, hd]
  · rcases h with h | h | h
    · exact absurd (length_le_of_decode hd) (Nat.not_le.mpr h)
    · rw [hd] at h
      exact Option.noConfusion h
    · simp [processInstruction, processAuthorizedEcho, hd, h hdr hd]

/-- Claim C10 witness: a 3-byte buffer (shorter than the 9-byte header) makes
`AuthorizedEcho` panic. -/
theorem authorized_echo_malformed_buffer_panics_witness :
    ([1, 2, 3] : List Nat).length < AUTH_BUFFER_HEADER_SIZE ∧
    processInstruction testHost 0 [⟨2, [1, 2, 3]⟩, ⟨3, []⟩]
      (.authorizedEcho [9]) true = none :=
  ⟨by decide,
    authorized_echo_malformed_buffer_panics testHost 0 ⟨2, [1, 2, 3]⟩ ⟨3, []⟩ [] [9] true
      (Or.inl (by decide))⟩

/-- Claim C2: an `AuthorizedEcho` call that passes the derivation check
overwrites the payload so that the byte at offset `i` after the header is
`data[i]` when `i < data.len()` and `0` otherwise, and writes nothing outside
the account's data region: the region keeps its length, and every other
account is untouched. -/
theorem authorized_echo_write_bounds (host : Host) (programId : Pubkey)
    (ab authority : AccountInfo) (rest : List AccountInfo) (data : List Nat)
    (mintValid : Bool) (hdr : AuthorizedBufferHeader)
    (hdec : decodeStoredHeader ab.data = some hdr)
    (hcpa : host.createProgramAddress (authSeedsWithBump authority.key hdr) programId
      = some ab.key) :
    processInstruction host programId (ab :: authority :: rest)
      (.authorizedEcho data) mintValid
      = some ⟨[], ⟨ab.key, authorizedWrite ab.data data⟩ :: authority :: rest, none⟩ ∧
    (authorizedWrite ab.data data).length = ab.data.length ∧
    ∀ i : Nat, i < ab.data.length - AUTH_BUFFER_HEADER_SIZE →
      (authorizedWrite ab.data data).getD (AUTH_BUFFER_HEADER_SIZE + i) 0
        = if i < data.length then data.getD i 0 else 0 := by
  have hlen : AUTH_BUFFER_HEADER_SIZE ≤ ab.data.length := length_le_of_decode hdec
  have htake : (ab.data.take AUTH_BUFFER_HEADER_SIZE).length = AUTH_BUFFER_HEADER_SIZE := by
    rw [List.length_take]
    omega
  refine ⟨?_, ?_, ?_⟩
  · simp [processInstruction, processAuthorizedEcho, hdec, hcpa]
  · unfold authorizedWrite
    rw [List.length_append, List.length_take, List.length_map, List.length_range]
    omega
  · intro i hi
    have hle : (ab.data.take AUTH_BUFFER_HEADER_SIZE).length
        ≤ AUTH_BUFFER_HEADER_SIZE + i := by
      rw [htake]
      omega
    unfold authorizedWrite
    rw [List.getD_append_right _ _ _ _ hle, htake, Nat.add_sub_cancel_left]
    exact rangeMap_getD _ i _ hi

/-- Claim C2 witness: a passing call on an 11-byte buffer with a 1-byte
payload. -/
theorem authorized_echo_write_bounds_witness :
    decodeStoredHeader [0, 0, 0, 0, 0, 0, 0, 0, 0, 5, 5] = some ⟨0, 0⟩ ∧
    testHost.createProgramAddress (authSeedsWithBump 3 ⟨0, 0⟩) 0 = some 1 ∧
    processInstruction testHost 0 [⟨1, [0, 0, 0, 0, 0, 0, 0, 0, 0, 5, 5]⟩, ⟨3, []⟩]
      (.authorizedEcho [9]) true
      = some ⟨[], [⟨1, authorizedWrite [0, 0, 0, 0, 0, 0, 0, 0, 0, 5, 5] [9]⟩, ⟨3, []⟩],
          none⟩ :=
  ⟨by decide, rfl,
    (authorized_echo_write_bounds testHost 0 ⟨1, [0, 0, 0, 0, 0, 0, 0, 0, 0, 5, 5]⟩
      ⟨3, []⟩ [] [9] true ⟨0, 0⟩ (by decide) rfl).1⟩

theorem processVending_success (host : Host) (programId : Pubkey)
    (vmB mint payer sys : AccountInfo) (rest : List AccountInfo)
    (price buffer_size : Nat) (mintValid : Bool)
    (hfa : (host.findProgramAddress (vendingSeeds mint.key price) programId).1 = vmB.key)
    (hsz : AUTH_BUFFER_HEADER_SIZE ≤ buffer_size) :
    processInstruction host programId (vmB :: mint :: payer :: sys :: rest)
      (.initializeVendingMachine price buffer_size) mintValid
      = some ⟨[⟨payer.key, vmB.key, buffer_size⟩],
        ⟨vmB.key, (VendingMachineBufferHeader.mk
            (host.findProgramAddress (vendingSeeds mint.key price) programId).2
            price).tryToVec
          ++ List.replicate (buffer_size - AUTH_BUFFER_HEADER_SIZE) 0⟩
          :: mint :: payer :: sys :: rest, none⟩ := by
  simp [processInstruction, processInitializeVendingMachine, hfa,
    (show ¬ buffer_size < AUTH_BUFFER_HEADER_SIZE by omega)]

/-- Claim C5: a successful `InitializeVendingMachine` writes the encoding of
`VendingMachineBufferHeader { bump_seed, price }` into exactly the first
`AUTH_BUFFER_HEADER_SIZE` bytes of the new account (the copy length is the
authorized header's width constant, as at processor.rs line 209), the rest of
the account staying zero. -/
theorem initialize_vending_header_write (host : Host) (programId : Pubkey)
    (vmB mint payer sys : AccountInfo) (rest : List AccountInfo)
    (price buffer_size : Nat) (mintValid : Bool) (bump : Nat)
    (hfa : host.findProgramAddress (vendingSeeds mint.key price) programId
      = (vmB.key, bump))
    (hsz : AUTH_BUFFER_HEADER_SIZE ≤ buffer_size) :
    processInstruction host programId (vmB :: mint :: payer :: sys :: rest)
      (.initializeVendingMachine price buffer_size) mintValid
      = some ⟨[⟨payer.key, vmB.key, buffer_size⟩],
        ⟨vmB.key, (VendingMachineBufferHeader.mk bump price).tryToVec
          ++ List.replicate (buffer_size - AUTH_BUFFER_HEADER_SIZE) 0⟩
          :: mint :: payer :: sys :: rest, none⟩ ∧
    (VendingMachineBufferHeader.mk bump price).tryToVec.length
      = AUTH_BUFFER_HEADER_SIZE := by
  constructor
  · have h1 : (host.findProgramAddress (vendingSeeds mint.key price) programId).1
        = vmB.key := by rw [hfa]
    have h2 : (host.findProgramAddress (vendingSeeds mint.key price) programId).2
        = bump := by rw [hfa]
    rw [processVending_success host programId vmB mint payer sys rest price buffer_size
      mintValid h1 hsz, h2]
  · simp [VendingMachineBufferHeader.tryToVec, u64LeBytes, AUTH_BUFFER_HEADER_SIZE]

/-- Claim C5 witness: a concrete successful creation at the minimal size. -/
theorem initialize_vending_header_write_witness :
    testHost.findProgramAddress (vendingSeeds 5 10) 0 = (1, 255) ∧
    AUTH_BUFFER_HEADER_SIZE ≤ 9 ∧
    (processInstruction testHost 0 [⟨1, []⟩, ⟨5, []⟩, ⟨6, []⟩, ⟨7, []⟩]
      (.initializeVendingMachine 10 9) true
      = some ⟨[⟨6, 1, 9⟩],
        [⟨1, (VendingMachineBufferHeader.mk 255 10).tryToVec ++ List.replicate 0 0⟩,
          ⟨5, []⟩, ⟨6, []⟩, ⟨7, []⟩], none⟩ ∧
    (VendingMachineBufferHeader.mk 255 10).tryToVec.length = AUTH_BUFFER_HEADER_SIZE) :=
  ⟨rfl, by decide,
    initialize_vending_header_write testHost 0 ⟨1, []⟩ ⟨5, []⟩ ⟨6, []⟩ ⟨7, []⟩ [] 10 9
      true 255 rfl (by decide)⟩

/-- Claim C6: on both creation paths, a supplied buffer account whose address
differs from the one derived from the expected seed tuple is rejected with
`InvalidAccountData`, with no account-creation request issued and all
accounts unchanged. -/
theorem creation_pda_mismatch_rejected (host : Host) (programId : Pubkey)
    (ab authority sys : AccountInfo) (rest : List AccountInfo)
    (buffer_seed buffer_size : Nat)
    (vmB mint payer sys2 : AccountInfo) (rest2 : List AccountInfo)
    (price buffer_size2 : Nat) (mintValid : Bool)
    (h1 : AUTH_BUFFER_HEADER_SIZE < buffer_size)
    (h2 : (host.findProgramAddress (authSeeds authority.key buffer_seed) programId).1
      ≠ ab.key)
    (h3 : (host.findProgramAddress (vendingSeeds mint.key price) programId).1
      ≠ vmB.key) :
    processInstruction host programId (ab :: authority :: sys :: rest)
      (.initializeAuthorizedEcho buffer_seed buffer_size) mintValid
      = some ⟨[], ab :: authority :: sys :: rest, some .invalidAccountData⟩ ∧
    processInstruction host programId (vmB :: mint :: payer :: sys2 :: rest2)
      (.initializeVendingMachine price buffer_size2) mintValid
      = some ⟨[], vmB :: mint :: payer :: sys2 :: rest2, some .invalidAccountData⟩ := by
  constructor
  · simp [processInstruction, processInitializeAuthorizedEcho, h2,
      (show ¬ buffer_size ≤ AUTH_BUFFER_HEADER_SIZE by omega)]
  · simp [processInstruction, processInitializeVendingMachine, h3]

/-- Claim C6 witness: both creation paths rejected when the derived address is
`1` but the supplied buffer's address is `2`. -/
theorem creation_pda_mismatch_rejected_witness :
    AUTH_BUFFER_HEADER_SIZE < 16 ∧
    (testHost.findProgramAddress (authSeeds 3 7) 0).1 ≠ 2 ∧
    (testHost.findProgramAddress (vendingSeeds 5 10) 0).1 ≠ 2 ∧
    (processInstruction testHost 0 [⟨2, []⟩, ⟨3, []⟩, ⟨7, []⟩]
      (.initializeAuthorizedEcho 7 16) true
      = some ⟨[], [⟨2, []⟩, ⟨3, []⟩, ⟨7, []⟩], some .invalidAccountData⟩ ∧
    processInstruction testHost 0 [⟨2, []⟩, ⟨5, []⟩, ⟨6, []⟩, ⟨7, []⟩]
      (.initializeVendingMachine 10 16) true
      = some ⟨[], [⟨2, []⟩, ⟨5, []⟩, ⟨6, []⟩, ⟨7, []⟩], some .invalidAccountData⟩) :=
  ⟨by decide, by decide, by decide,
    creation_pda_mismatch_rejected testHost 0 ⟨2, []⟩ ⟨3, []⟩ ⟨7, []⟩ [] 7 16
      ⟨2, []⟩ ⟨5, []⟩ ⟨6, []⟩ ⟨7, []⟩ [] 10 16 true (by decide) (by decide) (by decide)⟩

/-- Claim C7: a successful `InitializeAuthorizedEcho { buffer_seed,
buffer_size }` leaves the account at the derived address with its first
`AUTH_BUFFER_HEADER_SIZE` bytes equal to the encoding of
`AuthorizedBufferHeader { bump_seed, buffer_seed }` (bump from the derivation)
and the remaining `buffer_size - AUTH_BUFFER_HEADER_SIZE` bytes zero. -/
theorem initialize_authorized_creates_and_writes_header (host : Host)
    (programId : Pubkey) (ab authority sys : AccountInfo) (rest : List AccountInfo)
    (buffer_seed buffer_size : Nat) (mintValid : Bool) (bump : Nat)
    (hsz : AUTH_BUFFER_HEADER_SIZE < buffer_size)
    (hfa : host.findProgramAddress (authSeeds authority.key buffer_seed) programId
      = (ab.key, bump)) :
    processInstruction host programId (ab :: authority :: sys :: rest)
      (.initializeAuthorizedEcho buffer_seed buffer_size) mintValid
      = some ⟨[⟨authority.key, ab.key, buffer_size⟩],
        ⟨ab.key, (AuthorizedBufferHeader.mk bump buffer_seed).tryToVec
          ++ List.replicate (buffer_size - AUTH_BUFFER_HEADER_SIZE) 0⟩
          :: authority :: sys :: rest, none⟩ ∧
    (AuthorizedBufferHeader.mk bump buffer_seed).tryToVec.length
      = AUTH_BUFFER_HEADER_SIZE := by
  constructor
  · simp [processInstruction, processInitializeAuthorizedEcho, hfa,
      (show ¬ buffer_size ≤ AUTH_BUFFER_HEADER_SIZE by omega)]
  · simp [AuthorizedBufferHeader.tryToVec, u64LeBytes, AUTH_BUFFER_HEADER_SIZE]

/-- Claim C7 witness: the spec's scenario B shape, `buffer_seed = 3`,
`buffer_size = 16`. -/
theorem initialize_authorized_creates_and_writes_header_witness :
    AUTH_BUFFER_HEADER_SIZE < 16 ∧
    testHost.findProgramAddress (authSeeds 3 3) 0 = (1, 255) ∧
    (processInstruction testHost 0 [⟨1, []⟩, ⟨3, []⟩, ⟨7, []⟩]
      (.initializeAuthorizedEcho 3 16) true
      = some ⟨[⟨3, 1, 16⟩],
        [⟨1, (AuthorizedBufferHeader.mk 255 3).tryToVec ++ List.replicate 7 0⟩,
          ⟨3, []⟩, ⟨7, []⟩], none⟩ ∧
    (AuthorizedBufferHeader.mk 255 3).tryToVec.length = AUTH_BUFFER_HEADER_SIZE) :=
  ⟨by decide, rfl,
    initialize_authorized_creates_and_writes_header testHost 0 ⟨1, []⟩ ⟨3, []⟩ ⟨7, []⟩ []
      3 16 true 255 (by decide) rfl⟩

/-- Claim C8: `InitializeVendingMachine` never fails because the mint account
does not unpack as a valid token mint: the outcome is the same whatever the
mint check yields, and a call with an invalid mint still issues the creation
request and writes the header. -/
theorem vending_mint_check_nonfatal (host : Host) (programId : Pubkey)
    (vmB mint payer sys : AccountInfo) (rest : List AccountInfo)
    (price buffer_size : Nat) (mintValid : Bool)
    (hfa : (host.findProgramAddress (vendingSeeds mint.key price) programId).1 = vmB.key)
    (hsz : AUTH_BUFFER_HEADER_SIZE ≤ buffer_size) :
    processInstruction host programId (vmB :: mint :: payer :: sys :: rest)
      (.initializeVendingMachine price buffer_size) mintValid
      = processInstruction host programId (vmB :: mint :: payer :: sys :: rest)
        (.initializeVendingMachine price buffer_size) true ∧
    ∃ out : ExecOutcome,
      processInstruction host programId (vmB :: mint :: payer :: sys :: rest)
        (.initializeVendingMachine price buffer_size) mintValid = some out ∧
      out.err = none ∧ out.creates = [⟨payer.key, vmB.key, buffer_size⟩] := by
  constructor
  · rfl
  · rw [processVending_success host programId vmB mint payer sys rest price buffer_size
      mintValid hfa hsz]
    exact ⟨_, rfl, rfl, rfl⟩

/-- Claim C8 witness: a concrete call with the mint check failing
(`mintValid = false`) behaves as with a valid mint and succeeds. -/
theorem vending_mint_check_nonfatal_witness :
    (testHost.findProgramAddress (vendingSeeds 5 10) 0).1 = 1 ∧
    AUTH_BUFFER_HEADER_SIZE ≤ 12 ∧
    (processInstruction testHost 0 [⟨1, []⟩, ⟨5, []⟩, ⟨6, []⟩, ⟨7, []⟩]
      (.initializeVendingMachine 10 12) false
      = processInstruction testHost 0 [⟨1, []⟩, ⟨5, []⟩, ⟨6, []⟩, ⟨7, []⟩]
        (.initializeVendingMachine 10 12) true ∧
    ∃ out : ExecOutcome,
      processInstruction testHost 0 [⟨1, []⟩, ⟨5, []⟩, ⟨6, []⟩, ⟨7, []⟩]
        (.initializeVendingMachine 10 12) false = some out ∧
      out.err = none ∧ out.creates = [⟨6, 1, 12⟩]) :=
  ⟨rfl, by decide,
    vending_mint_check_nonfatal testHost 0 ⟨1, []⟩ ⟨5, []⟩ ⟨6, []⟩ ⟨7, []⟩ [] 10 12
      false rfl (by decide)⟩
